import Mathlib

set_option maxRecDepth 8000

/-!
Shallow embedding of the library-circulation service implemented in
src/library_service.py, together with a model of the data-access layer
(the database module imported by the service, whose contract is given in
the specification, section 6).

Modelling conventions:
* Timestamps are integers counting days; `borrow_date + 14` models
  `borrow_date + timedelta(days=14)`, and subtracting two day numbers models
  `(now.date() - due_date.date()).days`.
* Currency is held in integer cents (`fee_cents`).  Every fee the code can
  produce is an exact multiple of 50 cents, so Python's binary floats
  represent it exactly and `round(fee, 2)` is the identity; the cents model
  is therefore exact.
* Each storage call that can fail in the real system takes an explicit
  success flag (`insOk`, `updOk`, ...): the flag is `false` when the
  infrastructure call fails, in which case the store is left unchanged.
* A Python code path that raises an uncaught exception is modelled by the
  value `none` of an `Option` result type.
-/

structure Book where
  id : Int
  title : String
  author : String
  isbn : String
  total_copies : Int
  available_copies : Int
deriving Repr, DecidableEq

structure BorrowRecord where
  patron_id : String
  book_id : Int
  borrow_date : Int
  due_date : Int
  return_date : Option Int
deriving Repr, DecidableEq

/-- Row shape produced by the store's join of an active borrow record with its
book, as consumed by the service (`i["book_id"]`, `book["title"]`, ...). -/
structure BorrowedView where
  book_id : Int
  title : String
  author : String
  borrow_date : Int
  due_date : Int
deriving Repr, DecidableEq

structure LibState where
  books : List Book
  records : List BorrowRecord
deriving Repr, DecidableEq

/-- Modelled from the spec: Data Access Interface, getBookById(id) — the book
with the given id, or absent.  Ids are store-assigned and unique, so first
match is the match. -/
def get_book_by_id (s : LibState) (book_id : Int) : Option Book :=
  s.books.find? (fun b => b.id == book_id)

/-- Modelled from the spec: Data Access Interface, getBookByIsbn(isbn). -/
def get_book_by_isbn (s : LibState) (isbn : String) : Option Book :=
  s.books.find? (fun b => b.isbn == isbn)

/-- Modelled from the spec: Data Access Interface, getAllBooks(). -/
def get_all_books (s : LibState) : List Book :=
  s.books

/-- Predicate for a record that belongs to the patron and is still active
(return_date unset). -/
def isActivePatronRecord (pid : String) (r : BorrowRecord) : Bool :=
  r.patron_id == pid && r.return_date.isNone

/-- Modelled from the spec: Data Access Interface,
getPatronActiveBorrowCount(patronId). -/
def get_patron_borrow_count (s : LibState) (pid : String) : Nat :=
  (s.records.filter (isActivePatronRecord pid)).length

def bookTitleOf (s : LibState) (bid : Int) : String :=
  match get_book_by_id s bid with
  | some b => b.title
  | none => ""

def bookAuthorOf (s : LibState) (bid : Int) : String :=
  match get_book_by_id s bid with
  | some b => b.author
  | none => ""

def recordView (s : LibState) (r : BorrowRecord) : BorrowedView :=
  { book_id := r.book_id
    title := bookTitleOf s r.book_id
    author := bookAuthorOf s r.book_id
    borrow_date := r.borrow_date
    due_date := r.due_date }

/-- Modelled from the spec: Data Access Interface,
getPatronActiveBorrowRecords(patronId) — only unreturned records, joined with
book title/author, in store order. -/
def get_patron_borrowed_books (s : LibState) (pid : String) : List BorrowedView :=
  (s.records.filter (isActivePatronRecord pid)).map (recordView s)

def maxBookId (books : List Book) : Int :=
  books.foldr (fun b m => max b.id m) 0

/-- Modelled from the spec: Data Access Interface, insertBook — store-assigned
fresh id, one new Book row appended. -/
def insert_book (s : LibState) (title author isbn : String)
    (total available : Int) : LibState :=
  { s with
    books := s.books ++
      [{ id := maxBookId s.books + 1
         title := title
         author := author
         isbn := isbn
         total_copies := total
         available_copies := available }] }

/-- Modelled from the spec: Data Access Interface, insertBorrowRecord — a new
record with unset return_date appended. -/
def insert_borrow_record (s : LibState) (pid : String) (bid : Int)
    (bdate ddate : Int) : LibState :=
  { s with
    records := s.records ++
      [{ patron_id := pid
         book_id := bid
         borrow_date := bdate
         due_date := ddate
         return_date := none }] }

/-- Adjust the available_copies of the (unique) book with the given id. -/
def updateFirstAvail : List Book → Int → Int → List Book
  | [], _, _ => []
  | b :: t, bid, delta =>
    if b.id == bid then
      { b with available_copies := b.available_copies + delta } :: t
    else
      b :: updateFirstAvail t bid delta

/-- Modelled from the spec: Data Access Interface,
updateBookAvailability(id, delta).  Infrastructure success/failure of the call
is modelled by the flag at each call site. -/
def update_book_availability (s : LibState) (bid delta : Int) : LibState :=
  { s with books := updateFirstAvail s.books bid delta }

/-- Predicate for an active record of the given patron for the given book. -/
def isOpenLoanFor (pid : String) (bid : Int) (r : BorrowRecord) : Bool :=
  r.patron_id == pid && r.book_id == bid && r.return_date.isNone

def hasActiveRecord (records : List BorrowRecord) (pid : String) (bid : Int) : Bool :=
  records.any (isOpenLoanFor pid bid)

/-- Set the return date on the first active record of (patron, book). -/
def setFirstReturn : List BorrowRecord → String → Int → Int → List BorrowRecord
  | [], _, _, _ => []
  | r :: t, pid, bid, d =>
    if isOpenLoanFor pid bid r then
      { r with return_date := some d } :: t
    else
      r :: setFirstReturn t pid bid d

/-- Modelled from the spec: Data Access Interface,
updateBorrowRecordReturnDate(patronId, bookId, returnDate) → ok.  The update
reports ok exactly when it closed an active record of that patron for that
book; when the patron has no such active record the update touches no row and
reports failure. -/
def update_borrow_record_return_date (s : LibState) (pid : String)
    (bid d : Int) : Bool × LibState :=
  if hasActiveRecord s.records pid bid then
    (true, { s with records := setFirstReturn s.records pid bid d })
  else
    (false, s)

/-- Structural model of Python str.strip(): drop leading and trailing
whitespace.  (Kernel-reducible, unlike String.trim.) -/
def pyStrip (s : String) : String :=
  ⟨(((s.data.dropWhile Char.isWhitespace).reverse).dropWhile Char.isWhitespace).reverse⟩

/-- Structural model of Python str.lower(). -/
def pyLower (s : String) : String :=
  ⟨s.data.map Char.toLower⟩

/-- Patron id validation used by borrow, return and status report:
`not patron_id or not patron_id.isdigit() or len(patron_id) != 6`. -/
def isValidPatronId (pid : String) : Bool :=
  pid.length == 6 && pid.toList.all Char.isDigit

/-- Embedding of add_book_to_catalog (src/library_service.py, lines 15-58).
`insOk` is the success of the insert_book storage call. -/
def add_book_to_catalog (s : LibState) (title author isbn : String)
    (total_copies : Int) (insOk : Bool) : (Bool × String) × LibState :=
  if (pyStrip title) == "" then
    ((false, "Title is required."), s)
  else if (pyStrip title).length > 200 then
    ((false, "Title must be less than 200 characters."), s)
  else if (pyStrip author) == "" then
    ((false, "Author is required."), s)
  else if (pyStrip author).length > 100 then
    ((false, "Author must be less than 100 characters."), s)
  else if !(isbn.length == 13) then
    ((false, "ISBN must be exactly 13 digits."), s)
  else if total_copies ≤ 0 then
    ((false, "Total copies must be a positive integer."), s)
  else
    match get_book_by_isbn s isbn with
    | some _ => ((false, "A book with this ISBN already exists."), s)
    | none =>
      if insOk then
        ((true, "Book \"" ++ (pyStrip title) ++ "\" has been successfully added to the catalog."),
          insert_book s (pyStrip title) (pyStrip author) isbn total_copies total_copies)
      else
        ((false, "Database error occurred while adding the book."), s)

/-- Embedding of borrow_book_by_patron (src/library_service.py, lines 60-103).
`now` is the current day; due date is now + 14.  `insOk` and `updOk` are the
success of the two storage calls; a failed call leaves the store unchanged. -/
def borrow_book_by_patron (s : LibState) (pid : String) (bid now : Int)
    (insOk updOk : Bool) : (Bool × String) × LibState :=
  if !(isValidPatronId pid) then
    ((false, "Invalid patron ID. Must be exactly 6 digits."), s)
  else
    match get_book_by_id s bid with
    | none => ((false, "Book not found."), s)
    | some book =>
      if book.available_copies ≤ 0 then
        ((false, "This book is currently not available."), s)
      else if 5 < get_patron_borrow_count s pid then
        ((false, "You have reached the maximum borrowing limit of 5 books."), s)
      else if !insOk then
        ((false, "Database error occurred while creating borrow record."), s)
      else
        let s1 := insert_borrow_record s pid bid now (now + 14)
        if !updOk then
          ((false, "Database error occurred while updating book availability."), s1)
        else
          ((true, "Successfully borrowed \"" ++ book.title ++ "\". Due date: " ++
              toString (now + 14) ++ "."),
            update_book_availability s1 bid (-1))

/-- Tail of return_book_by_patron after the active-record scan: the two
storage updates, in order.  A false flag models the corresponding call
failing at the infrastructure level. -/
def returnFinish (s : LibState) (pid : String) (bid now : Int)
    (uR uA : Bool) : (Bool × String) × LibState :=
  if !uR then
    ((false, "Error while updating return record."), s)
  else
    match update_borrow_record_return_date s pid bid now with
    | (false, s1) => ((false, "Error while updating return record."), s1)
    | (true, s1) =>
      if !uA then
        ((false, "Error while updating book availability."), s1)
      else
        ((true, "Successfully returned book."), update_book_availability s1 bid 1)

/-- Embedding of return_book_by_patron (src/library_service.py, lines 105-145).
The Python scan is `for i in borrowed_books: if i["book_id"] == book_id:
break else: return failure` — the else belongs to the if inside the loop body,
so only the first element is ever inspected, and an empty list skips the loop
entirely and proceeds to the storage updates.  The dead Python check
`type(book_id) is not int` never fires here since book_id is typed. -/
def return_book_by_patron (s : LibState) (pid : String) (bid now : Int)
    (uR uA : Bool) : (Bool × String) × LibState :=
  if !(isValidPatronId pid) then
    ((false, "Invalid patron ID. Must be exactly 6 digits."), s)
  else
    match get_book_by_id s bid with
    | none => ((false, "Book not found."), s)
    | some _ =>
      match get_patron_borrowed_books s pid with
      | [] => returnFinish s pid bid now uR uA
      | first :: _ =>
        if first.book_id != bid then
          ((false, "This book is not currently being borrowed by you."), s)
        else
          returnFinish s pid bid now uR uA

structure FeeQuote where
  fee_cents : Int
  days_overdue : Int
  status : String
deriving Repr, DecidableEq

/-- Fee for a positive number of overdue days, in cents: first seven days at
50 cents each, later days at 100 cents, capped at 1500 cents. -/
def feeCentsFor (d : Int) : Int :=
  let first_week := min d 7
  let remaining := max (d - 7) 0
  let fee := 50 * first_week + 100 * remaining
  if 1500 < fee then 1500 else fee

/-- Core of calculate_late_fee_for_book over the fetched active-record list.
The Python loop inspects only the first element (see return_book_by_patron);
when the list is empty the loop leaves `borrowed = None` and the subsequent
`borrowed["due_date"]` raises an uncaught TypeError, modelled as `none`.
The Python branch `if due_date is str` compares a value with a type using
`is`, which is always false, so no string conversion ever happens. -/
def lateFeeFromList (bb : List BorrowedView) (bid now : Int) : Option FeeQuote :=
  match bb with
  | [] => none
  | first :: _ =>
    if first.book_id != bid then
      some { fee_cents := 0, days_overdue := 0, status := "Not being borrowed" }
    else
      let d := max (now - first.due_date) 0
      if d ≤ 0 then
        some { fee_cents := 0, days_overdue := d, status := "On time" }
      else
        some { fee_cents := feeCentsFor d, days_overdue := d, status := "Overdue" }

/-- Embedding of calculate_late_fee_for_book (src/library_service.py,
lines 148-192). -/
def calculate_late_fee_for_book (s : LibState) (pid : String)
    (bid now : Int) : Option FeeQuote :=
  lateFeeFromList (get_patron_borrowed_books s pid) bid now

/-- Substring containment on char lists, modelling Python's `term in value`. -/
def listContainsSub (needle : List Char) : List Char → Bool
  | [] => needle.isEmpty
  | c :: t => needle.isPrefixOf (c :: t) || listContainsSub needle t

def strContainsSub (hay needle : String) : Bool :=
  listContainsSub needle.toList hay.toList

def searchFieldOf (b : Book) (ty : String) : String :=
  if ty == "title" then b.title
  else if ty == "author" then b.author
  else if ty == "isbn" then b.isbn
  else ""

/-- Embedding of search_books_in_catalog (src/library_service.py,
lines 194-224).  `(search_type or "title")` maps the empty string to "title"
before lowercasing; unknown types default to "title". -/
def search_books_in_catalog (s : LibState) (search_term search_type : String) :
    List Book :=
  if search_term == "" then []
  else
    let t1 := pyLower (if search_type == "" then "title" else search_type)
    let st := if t1 == "title" || t1 == "author" || t1 == "isbn" then t1 else "title"
    let term := pyLower (pyStrip search_term)
    (get_all_books s).filter (fun b =>
      if st == "title" || st == "author" then
        strContainsSub (pyLower (searchFieldOf b st)) term
      else
        pyLower b.isbn == term)

structure BorrowDetail where
  book_id : Int
  title : String
  author : String
  borrow_date : Int
  due_date : Int
  days_overdue : Int
  late_fee_cents : Int
  status : String
deriving Repr, DecidableEq

structure HistoryEntry where
  book_id : Int
  title : String
  author : String
  borrow_date : Int
  due_date : Int
  return_date : Option Int
deriving Repr, DecidableEq

structure StatusReport where
  patron_id : String
  borrow_count : Nat
  borrowed_books : List BorrowDetail
  borrowing_history : List HistoryEntry
  total_late_fee_cents : Int
deriving Repr, DecidableEq

def mkDetail (b : BorrowedView) (q : FeeQuote) : BorrowDetail :=
  { book_id := b.book_id
    title := b.title
    author := b.author
    borrow_date := b.borrow_date
    due_date := b.due_date
    days_overdue := q.days_overdue
    late_fee_cents := q.fee_cents
    status := q.status }

/-- The status-report loop body: one detail entry per active record, each
obtained by calling calculate_late_fee_for_book for that record's book id;
a crash in the fee calculator propagates. -/
def buildDetails (s : LibState) (pid : String) (now : Int) :
    List BorrowedView → Option (List BorrowDetail)
  | [] => some []
  | b :: t =>
    match calculate_late_fee_for_book s pid b.book_id now with
    | none => none
    | some q =>
      match buildDetails s pid now t with
      | none => none
      | some rest => some (mkDetail b q :: rest)

def historyView (s : LibState) (r : BorrowRecord) : HistoryEntry :=
  { book_id := r.book_id
    title := bookTitleOf s r.book_id
    author := bookAuthorOf s r.book_id
    borrow_date := r.borrow_date
    due_date := r.due_date
    return_date := r.return_date }

def insertByDateDesc (e : HistoryEntry) : List HistoryEntry → List HistoryEntry
  | [] => [e]
  | x :: t => if x.borrow_date ≤ e.borrow_date then e :: x :: t else x :: insertByDateDesc e t

def sortByDateDesc : List HistoryEntry → List HistoryEntry
  | [] => []
  | x :: t => insertByDateDesc x (sortByDateDesc t)

/-- Modelled from the spec: the history query of get_patron_status_report —
all of the patron's borrow records (returned ones included) joined with book
title/author, ordered by borrow_date descending. -/
def get_patron_history (s : LibState) (pid : String) : List HistoryEntry :=
  sortByDateDesc ((s.records.filter (fun r => r.patron_id == pid)).map (historyView s))

/-- Embedding of get_patron_status_report (src/library_service.py,
lines 227-292).  The sum of entry fees is exact in cents, so the final
`round(total_fees, 2)` is the identity. -/
def get_patron_status_report (s : LibState) (pid : String) (now : Int) :
    Option StatusReport :=
  if !(isValidPatronId pid) then
    some { patron_id := pid
           borrow_count := 0
           borrowed_books := []
           borrowing_history := []
           total_late_fee_cents := 0 }
  else
    let bb := get_patron_borrowed_books s pid
    match buildDetails s pid now bb with
    | none => none
    | some details =>
      some { patron_id := pid
             borrow_count := bb.length
             borrowed_books := details
             borrowing_history := get_patron_history s pid
             total_late_fee_cents := (details.map BorrowDetail.late_fee_cents).sum }

/-- Closed form of the detail entry the status report produces for an active
record `b` when the patron's fetched active list starts with `first`: the fee
quote inspects only `first`, so an entry matching `first`'s book id gets the
quote computed from `first`'s due date and every other entry gets the
zero-fee "Not being borrowed" quote. -/
def expectedDetail (first : BorrowedView) (now : Int) (b : BorrowedView) :
    BorrowDetail :=
  if first.book_id != b.book_id then
    mkDetail b { fee_cents := 0, days_overdue := 0, status := "Not being borrowed" }
  else
    let d := max (now - first.due_date) 0
    if d ≤ 0 then
      mkDetail b { fee_cents := 0, days_overdue := d, status := "On time" }
    else
      mkDetail b { fee_cents := feeCentsFor d, days_overdue := d, status := "Overdue" }

/-- No two books share the same lowercased ISBN string. -/
def nodupLoweredIsbn : List Book → Bool
  | [] => true
  | b :: t =>
    (t.all (fun x => pyLower x.isbn != pyLower b.isbn)) && nodupLoweredIsbn t

/-- One public mutating operation together with the success flags of the
storage calls it makes. -/
inductive LibOp where
  | addB (title author isbn : String) (tc : Int) (insOk : Bool)
  | borrowB (pid : String) (bid now : Int) (insOk updOk : Bool)
  | returnB (pid : String) (bid now : Int) (uR uA : Bool)
deriving Repr, DecidableEq

def applyOp (s : LibState) : LibOp → LibState
  | .addB t a i tc ok => (add_book_to_catalog s t a i tc ok).2
  | .borrowB p b n i u => (borrow_book_by_patron s p b n i u).2
  | .returnB p b n r a => (return_book_by_patron s p b n r a).2

def runOps (s : LibState) (ops : List LibOp) : LibState :=
  ops.foldl applyOp s

/-- All storage calls of the operation succeed. -/
def opAllOk : LibOp → Bool
  | .addB _ _ _ _ ok => ok
  | .borrowB _ _ _ i u => i && u
  | .returnB _ _ _ r a => r && a

/-- Number of active borrow records for a given book, across all patrons. -/
def activeCountFor (records : List BorrowRecord) (bid : Int) : Nat :=
  records.countP (fun r => r.return_date.isNone && r.book_id == bid)

/-- Internal consistency carried through the reachability induction: unique
book ids, records reference existing books, and each book's availability
plus its active loans stay within its total copies. -/
def Consistent (s : LibState) : Prop :=
  (s.books.map Book.id).Nodup ∧
  (∀ r ∈ s.records, ∃ b ∈ s.books, b.id = r.book_id) ∧
  (∀ b ∈ s.books, 0 ≤ b.available_copies ∧
    b.available_copies + (activeCountFor s.records b.id : Int) ≤ b.total_copies)

/-- A valid catalog as a starting state: book records only, store-unique ids,
every book within 0 ≤ available ≤ total. -/
def ValidInit (s : LibState) : Prop :=
  s.records = [] ∧ (s.books.map Book.id).Nodup ∧
  ∀ b ∈ s.books, 0 ≤ b.available_copies ∧ b.available_copies ≤ b.total_copies

/-! Concrete stores used by the closed theorems below. -/

def demoBook1 : Book :=
  { id := 1, title := "The Great Gatsby", author := "F. Scott Fitzgerald"
    isbn := "9780743273565", total_copies := 3, available_copies := 3 }

def demoBook2 : Book :=
  { id := 2, title := "Nineteen Eighty-Four", author := "George Orwell"
    isbn := "9780451524935", total_copies := 2, available_copies := 2 }

/-- Two books, no borrow records. -/
def demoState : LibState :=
  { books := [demoBook1, demoBook2], records := [] }

/-- Patron 123456 holds five active loans; book 1 still has a copy free. -/
def fiveLoanState : LibState :=
  { books := [demoBook1, demoBook2]
    records :=
      [ { patron_id := "123456", book_id := 11, borrow_date := 0, due_date := 14, return_date := none }
      , { patron_id := "123456", book_id := 12, borrow_date := 0, due_date := 14, return_date := none }
      , { patron_id := "123456", book_id := 13, borrow_date := 0, due_date := 14, return_date := none }
      , { patron_id := "123456", book_id := 14, borrow_date := 0, due_date := 14, return_date := none }
      , { patron_id := "123456", book_id := 15, borrow_date := 0, due_date := 14, return_date := none } ] }

/-- Patron 123456 has one active loan of book 1, due on day 14. -/
def oneLoanState : LibState :=
  { books := [demoBook1, demoBook2]
    records :=
      [ { patron_id := "123456", book_id := 1, borrow_date := 0, due_date := 14, return_date := none } ] }

/-- Patron 123456 has two active loans (books 1 and 2), both due on day 14. -/
def twoLoanState : LibState :=
  { books := [demoBook1, demoBook2]
    records :=
      [ { patron_id := "123456", book_id := 1, borrow_date := 0, due_date := 14, return_date := none }
      , { patron_id := "123456", book_id := 2, borrow_date := 1, due_date := 15, return_date := none } ] }

/-- A single-copy catalog for the partial-failure trace. -/
def partialFailInit : LibState :=
  { books := [{ id := 1, title := "Moby-Dick", author := "Herman Melville"
                isbn := "9781503280786", total_copies := 1, available_copies := 1 }]
    records := [] }

/-- Borrow during which the availability decrement fails, then a return of the
inserted record. -/
def partialFailOps : List LibOp :=
  [ .borrowB "123456" 1 0 true false
  , .returnB "123456" 1 3 true true ]

/-- The same trace with every storage call succeeding. -/
def allOkOps : List LibOp :=
  [ .borrowB "123456" 1 0 true true
  , .returnB "123456" 1 3 true true ]

/-- Book 1 has no available copy. -/
def zeroAvailState : LibState :=
  { books := [{ id := 1, title := "Walden", author := "Henry David Thoreau"
                isbn := "9781505297720", total_copies := 2, available_copies := 0 }]
    records := [] }

/-- Two books whose ISBN strings differ only by letter case. -/
def caseIsbnState : LibState :=
  { books :=
      [ { id := 1, title := "First", author := "A", isbn := "ABCDEFGHIJKLM"
          total_copies := 1, available_copies := 1 }
      , { id := 2, title := "Second", author := "B", isbn := "abcdefghijklm"
          total_copies := 1, available_copies := 1 } ]
    records := [] }

/-- A 201-character title, too long even after trimming. -/
def longTitle : String :=
  String.mk (List.replicate 201 'a')

/-! Helper lemmas about the store primitives. -/

theorem updateFirstAvail_map_id (books : List Book) (bid delta : Int) :
    (updateFirstAvail books bid delta).map Book.id = books.map Book.id := by
  induction books with
  | nil => rfl
  | cons b t ih =>
    by_cases h : b.id == bid
    · simp [updateFirstAvail, h]
    · simp [updateFirstAvail, h, ih]

theorem updateFirstAvail_of_not_mem (books : List Book) (bid delta : Int)
    (h : ∀ b ∈ books, b.id ≠ bid) :
    updateFirstAvail books bid delta = books := by
  induction books with
  | nil => rfl
  | cons b t ih =>
    have hb : (b.id == bid) = false :=
      beq_eq_false_iff_ne.mpr (h b (List.mem_cons_self b t))
    simp [updateFirstAvail, hb, ih (fun x hx => h x (List.mem_cons_of_mem b hx))]

theorem updateFirstAvail_decomp (books : List Book) (bid delta : Int) (b0 : Book)
    (hfind : books.find? (fun b => b.id == bid) = some b0) :
    ∃ pre post,
      books = pre ++ b0 :: post ∧
      (∀ x ∈ pre, x.id ≠ bid) ∧
      b0.id = bid ∧
      updateFirstAvail books bid delta =
        pre ++ { b0 with available_copies := b0.available_copies + delta } :: post := by
  induction books with
  | nil => simp [List.find?] at hfind
  | cons b t ih =>
    by_cases h : (b.id == bid) = true
    · rw [List.find?_cons_of_pos (p := fun b => b.id == bid) t h] at hfind
      have hb0 : b0 = b := (Option.some.inj hfind).symm
      subst hb0
      exact ⟨[], t, by simp, by simp, by simpa using h, by simp [updateFirstAvail, h]⟩
    · rw [List.find?_cons_of_neg (p := fun b => b.id == bid) t (by simpa using h)] at hfind
      obtain ⟨pre, post, hsplit, hpre, hid, hupd⟩ := ih hfind
      refine ⟨b :: pre, post, by simp [hsplit], ?_, hid, ?_⟩
      · intro x hx
        rcases List.mem_cons.mp hx with hx | hx
        · subst hx; simpa using h
        · exact hpre x hx
      · simp [updateFirstAvail, h, hupd]

theorem le_maxBookId (books : List Book) (b : Book) (hb : b ∈ books) :
    b.id ≤ maxBookId books := by
  induction books with
  | nil => cases hb
  | cons x t ih =>
    rcases List.mem_cons.mp hb with h | h
    · subst h; exact le_max_left _ _
    · exact le_trans (ih h) (le_max_right _ _)

theorem isOpenLoanFor_active (pid : String) (bid : Int) (r : BorrowRecord)
    (h : isOpenLoanFor pid bid r = true) : isActivePatronRecord pid r = true := by
  simp only [isOpenLoanFor, Bool.and_assoc, Bool.and_eq_true] at h
  simp [isActivePatronRecord, h.1, h.2.2]

theorem filter_head_decomp {α : Type} (p : α → Bool) :
    ∀ (l : List α) (r0 : α) (t' : List α),
      l.filter p = r0 :: t' →
      ∃ pre post, l = pre ++ r0 :: post ∧ (∀ x ∈ pre, p x = false) ∧ p r0 = true
  | [], r0, t', h => by simp at h
  | r :: t, r0, t', h => by
    by_cases hp : p r = true
    · rw [List.filter_cons_of_pos hp] at h
      obtain ⟨h1, _⟩ := List.cons.inj h
      exact ⟨[], t, by simp [h1], by simp, h1 ▸ hp⟩
    · rw [List.filter_cons_of_neg (by simpa using hp)] at h
      obtain ⟨pre, post, hs, hpre, hp0⟩ := filter_head_decomp p t r0 t' h
      refine ⟨r :: pre, post, by simp [hs], ?_, hp0⟩
      intro x hx
      rcases List.mem_cons.mp hx with hx | hx
      · subst hx; simpa using hp
      · exact hpre x hx

theorem setFirstReturn_of_decomp (pid : String) (bid d : Int) (r0 : BorrowRecord)
    (hopen : isOpenLoanFor pid bid r0 = true) :
    ∀ (pre post : List BorrowRecord),
      (∀ x ∈ pre, isOpenLoanFor pid bid x = false) →
      setFirstReturn (pre ++ r0 :: post) pid bid d =
        pre ++ { r0 with return_date := some d } :: post
  | [], post, _ => by simp [setFirstReturn, hopen]
  | x :: pre, post, hpre => by
    have hx : isOpenLoanFor pid bid x = false := hpre x (List.mem_cons_self x pre)
    simp [setFirstReturn, hx,
      setFirstReturn_of_decomp pid bid d r0 hopen pre post
        (fun y hy => hpre y (List.mem_cons_of_mem x hy))]

theorem setFirstReturn_head_decomp (records : List BorrowRecord) (pid : String)
    (bid d : Int) (r0 : BorrowRecord) (t' : List BorrowRecord)
    (hfilter : records.filter (isActivePatronRecord pid) = r0 :: t')
    (hbid : r0.book_id = bid) :
    ∃ pre post,
      records = pre ++ r0 :: post ∧
      (∀ x ∈ pre, isActivePatronRecord pid x = false) ∧
      isOpenLoanFor pid bid r0 = true ∧
      setFirstReturn records pid bid d =
        pre ++ { r0 with return_date := some d } :: post := by
  obtain ⟨pre, post, hsplit, hpre, hact⟩ :=
    filter_head_decomp (isActivePatronRecord pid) records r0 t' hfilter
  have hopen : isOpenLoanFor pid bid r0 = true := by
    simp only [isActivePatronRecord, Bool.and_eq_true] at hact
    simp [isOpenLoanFor, hact.1, hact.2, hbid]
  have hpre' : ∀ x ∈ pre, isOpenLoanFor pid bid x = false := by
    intro x hx
    rcases Bool.eq_false_or_eq_true (isOpenLoanFor pid bid x) with hc | hc
    · exact absurd (isOpenLoanFor_active pid bid x hc) (by simp [hpre x hx])
    · exact hc
  exact ⟨pre, post, hsplit, hpre, hopen,
    by rw [hsplit, setFirstReturn_of_decomp pid bid d r0 hopen pre post hpre']⟩

theorem hasActiveRecord_of_filter_head (records : List BorrowRecord) (pid : String)
    (bid : Int) (r0 : BorrowRecord) (t' : List BorrowRecord)
    (hfilter : records.filter (isActivePatronRecord pid) = r0 :: t')
    (hbid : r0.book_id = bid) :
    hasActiveRecord records pid bid = true := by
  have hr0mem : r0 ∈ records.filter (isActivePatronRecord pid) := by
    rw [hfilter]; exact List.mem_cons_self _ _
  have hr0 : r0 ∈ records := List.mem_of_mem_filter hr0mem
  have hact : isActivePatronRecord pid r0 = true := List.of_mem_filter hr0mem
  simp only [isActivePatronRecord, Bool.and_eq_true] at hact
  refine List.any_eq_true.mpr ⟨r0, hr0, ?_⟩
  simp [isOpenLoanFor, hact.1, hact.2, hbid]

/-! Active-loan counting lemmas. -/

theorem activeCountFor_append_new (records : List BorrowRecord) (pid : String)
    (bid bd dd b' : Int) :
    activeCountFor (records ++
        [{ patron_id := pid, book_id := bid, borrow_date := bd, due_date := dd,
           return_date := none }]) b' =
      activeCountFor records b' + (if bid == b' then 1 else 0) := by
  simp [activeCountFor, List.countP_append, List.countP_cons]

theorem activeCountFor_close_same (pre post : List BorrowRecord)
    (r0 : BorrowRecord) (pid : String) (bid d : Int)
    (hopen : isOpenLoanFor pid bid r0 = true) :
    activeCountFor (pre ++ r0 :: post) bid =
      activeCountFor (pre ++ { r0 with return_date := some d } :: post) bid + 1 := by
  simp only [isOpenLoanFor, Bool.and_eq_true] at hopen
  have h1 : (r0.return_date.isNone && r0.book_id == bid) = true := by
    simp [hopen.1.2, hopen.2]
  simp [activeCountFor, List.countP_append, List.countP_cons, h1]
  omega

theorem activeCountFor_close_other (pre post : List BorrowRecord)
    (r0 : BorrowRecord) (pid : String) (bid d b' : Int)
    (hopen : isOpenLoanFor pid bid r0 = true) (hne : b' ≠ bid) :
    activeCountFor (pre ++ { r0 with return_date := some d } :: post) b' =
      activeCountFor (pre ++ r0 :: post) b' := by
  simp only [isOpenLoanFor, Bool.and_eq_true] at hopen
  have hb : (r0.book_id == b') = false := by
    have : r0.book_id = bid := by simpa using hopen.1.2
    exact beq_eq_false_iff_ne.mpr (this ▸ fun hc => hne hc.symm)
  simp [activeCountFor, List.countP_append, List.countP_cons, hb]

theorem activeCountFor_pos (pre post : List BorrowRecord)
    (r0 : BorrowRecord) (pid : String) (bid : Int)
    (hopen : isOpenLoanFor pid bid r0 = true) :
    1 ≤ activeCountFor (pre ++ r0 :: post) bid := by
  simp only [isOpenLoanFor, Bool.and_eq_true] at hopen
  have h1 : (r0.return_date.isNone && r0.book_id == bid) = true := by
    simp [hopen.1.2, hopen.2]
  simp [activeCountFor, List.countP_append, List.countP_cons, h1]
  omega

/-! Shape lemmas for the mutating operations when every storage call
succeeds. -/

theorem borrow_tt_cases (s : LibState) (pid : String) (bid now : Int) :
    (borrow_book_by_patron s pid bid now true true).2 = s ∨
    (∃ book0, get_book_by_id s bid = some book0 ∧ 0 < book0.available_copies ∧
      (borrow_book_by_patron s pid bid now true true).2 =
        update_book_availability (insert_borrow_record s pid bid now (now + 14))
          bid (-1)) := by
  by_cases hv : isValidPatronId pid = true
  · cases hb : get_book_by_id s bid with
    | none => left; simp [borrow_book_by_patron, hv, hb]
    | some book =>
      by_cases ha : book.available_copies ≤ 0
      · left; simp [borrow_book_by_patron, hv, hb, ha]
      · by_cases hc : 5 < get_patron_borrow_count s pid
        · left; simp [borrow_book_by_patron, hv, hb, ha, hc]
        · right
          exact ⟨book, rfl, by omega,
            by simp [borrow_book_by_patron, hv, hb, ha, hc]⟩
  · have hv' : isValidPatronId pid = false := by simpa using hv
    left; simp [borrow_book_by_patron, hv']

theorem return_tt_cases (s : LibState) (pid : String) (bid now : Int) :
    (return_book_by_patron s pid bid now true true).2 = s ∨
    (∃ book0 r0 t', get_book_by_id s bid = some book0 ∧
      s.records.filter (isActivePatronRecord pid) = r0 :: t' ∧
      r0.book_id = bid ∧
      (return_book_by_patron s pid bid now true true).2 =
        { books := updateFirstAvail s.books bid 1
          records := setFirstReturn s.records pid bid now }) := by
  by_cases hv : isValidPatronId pid = true
  · cases hb : get_book_by_id s bid with
    | none => left; simp [return_book_by_patron, hv, hb]
    | some book =>
      cases hf : s.records.filter (isActivePatronRecord pid) with
      | nil =>
        left
        have hbb : get_patron_borrowed_books s pid = [] := by
          simp [get_patron_borrowed_books, hf]
        have hact : hasActiveRecord s.records pid bid = false := by
          rw [hasActiveRecord, List.any_eq_false]
          intro x hx hc
          exact (List.filter_eq_nil_iff.mp hf) x hx (isOpenLoanFor_active pid bid x hc)
        simp [return_book_by_patron, hv, hb, hbb, returnFinish,
          update_borrow_record_return_date, hact]
      | cons r0 t' =>
        have hbb : get_patron_borrowed_books s pid =
            recordView s r0 :: t'.map (recordView s) := by
          simp [get_patron_borrowed_books, hf]
        by_cases hbid : r0.book_id = bid
        · right
          have hact : hasActiveRecord s.records pid bid = true :=
            hasActiveRecord_of_filter_head _ _ _ _ _ hf hbid
          refine ⟨book, r0, t', rfl, rfl, hbid, ?_⟩
          have hfirst : ((recordView s r0).book_id != bid) = false := by
            simp [recordView, hbid]
          simp [return_book_by_patron, hv, hb, hbb, hfirst, returnFinish,
            update_borrow_record_return_date, hact, update_book_availability]
        · left
          have hfirst : ((recordView s r0).book_id != bid) = true := by
            simp [recordView, hbid]
          simp [return_book_by_patron, hv, hb, hbb, hfirst]
  · have hv' : isValidPatronId pid = false := by simpa using hv
    left; simp [return_book_by_patron, hv']

theorem add_tt_cases (s : LibState) (t a i : String) (tc : Int) :
    (add_book_to_catalog s t a i tc true).2 = s ∨
    (0 < tc ∧
      (add_book_to_catalog s t a i tc true).2 = insert_book s (pyStrip t) (pyStrip a) i tc tc) := by
  cases h1 : ((pyStrip t) == "") with
  | true => left; simp [add_book_to_catalog, h1]
  | false =>
    by_cases h2 : (pyStrip t).length > 200
    · left; simp [add_book_to_catalog, h1, h2]
    · cases h3 : ((pyStrip a) == "") with
      | true => left; simp [add_book_to_catalog, h1, h2, h3]
      | false =>
        by_cases h4 : (pyStrip a).length > 100
        · left; simp [add_book_to_catalog, h1, h2, h3, h4]
        · cases h5 : (i.length == 13) with
          | false => left; simp [add_book_to_catalog, h1, h2, h3, h4, h5]
          | true =>
            by_cases h6 : tc ≤ 0
            · left; simp [add_book_to_catalog, h1, h2, h3, h4, h5, h6]
            · cases h7 : get_book_by_isbn s i with
              | some b => left; simp [add_book_to_catalog, h1, h2, h3, h4, h5, h6, h7]
              | none =>
                right
                exact ⟨by omega, by simp [add_book_to_catalog, h1, h2, h3, h4, h5, h6, h7]⟩

/-! Preservation of internal consistency by each all-storage-ok operation. -/

theorem activeCountFor_append_same (records : List BorrowRecord) (pid : String)
    (bid bd dd : Int) :
    activeCountFor (records ++
        [{ patron_id := pid, book_id := bid, borrow_date := bd, due_date := dd,
           return_date := none }]) bid =
      activeCountFor records bid + 1 := by
  simp [activeCountFor, List.countP_append, List.countP_cons]

theorem activeCountFor_append_other (records : List BorrowRecord) (pid : String)
    (bid bd dd b' : Int) (h : b' ≠ bid) :
    activeCountFor (records ++
        [{ patron_id := pid, book_id := bid, borrow_date := bd, due_date := dd,
           return_date := none }]) b' =
      activeCountFor records b' := by
  have hb : (bid == b') = false := beq_eq_false_iff_ne.mpr (fun hc => h hc.symm)
  simp [activeCountFor, List.countP_append, List.countP_cons, hb]

theorem exists_book_id_of_map_eq (books books' : List Book)
    (h : books'.map Book.id = books.map Book.id) (v : Int)
    (hex : ∃ b ∈ books, b.id = v) : ∃ b ∈ books', b.id = v := by
  obtain ⟨b, hb, hid⟩ := hex
  have hv : v ∈ books.map Book.id := List.mem_map.mpr ⟨b, hb, hid⟩
  rw [← h] at hv
  obtain ⟨b', hb', hid'⟩ := List.mem_map.mp hv
  exact ⟨b', hb', hid'⟩

theorem consistent_borrow_tt (s : LibState) (pid : String) (bid now : Int)
    (h : Consistent s) :
    Consistent (borrow_book_by_patron s pid bid now true true).2 := by
  rcases borrow_tt_cases s pid bid now with heq | ⟨book0, hfind, hpos, heq⟩
  · rw [heq]; exact h
  · obtain ⟨hnodup, href, hacct⟩ := h
    have hfind' : s.books.find? (fun b => b.id == bid) = some book0 := hfind
    obtain ⟨pre, post, hsplit, hpre, hid, hupd⟩ :=
      updateFirstAvail_decomp s.books bid (-1) book0 hfind'
    rw [heq]
    simp only [update_book_availability, insert_borrow_record]
    refine ⟨?_, ?_, ?_⟩
    · rw [updateFirstAvail_map_id]; exact hnodup
    · intro r hr
      rcases List.mem_append.mp hr with hr | hr
      · exact exists_book_id_of_map_eq s.books _ (updateFirstAvail_map_id s.books bid (-1))
          r.book_id (href r hr)
      · have hrb : r.book_id = bid := by
          rcases List.mem_singleton.mp hr with rfl
          rfl
        rw [hrb]
        exact exists_book_id_of_map_eq s.books _ (updateFirstAvail_map_id s.books bid (-1))
          bid ⟨book0, List.mem_of_find?_eq_some hfind', hid⟩
    · intro b hb
      rw [hupd] at hb
      have hnodup2 : book0.id ∉ post.map Book.id := by
        rw [hsplit] at hnodup
        simp only [List.map_append, List.map_cons] at hnodup
        exact (List.nodup_cons.mp (hnodup.of_append_right)).1
      rcases List.mem_append.mp hb with hbpre | hbrest
      · have hbne : b.id ≠ bid := hpre b hbpre
        have hbmem : b ∈ s.books := by
          rw [hsplit]; exact List.mem_append_left _ hbpre
        rw [activeCountFor_append_other _ _ _ _ _ _ hbne]
        exact hacct b hbmem
      · rcases List.mem_cons.mp hbrest with hbeq | hbpost
        · subst hbeq
          have hold := hacct book0 (List.mem_of_find?_eq_some hfind')
          show 0 ≤ book0.available_copies + (-1) ∧
            book0.available_copies + (-1) +
              ((activeCountFor (s.records ++
                  [{ patron_id := pid, book_id := bid, borrow_date := now,
                     due_date := now + 14, return_date := none }]) book0.id : Nat) : Int) ≤
              book0.total_copies
          rw [hid, activeCountFor_append_same]
          rw [hid] at hold
          push_cast
          omega
        · have hbne : b.id ≠ bid := by
            intro hc
            exact hnodup2 (List.mem_map.mpr ⟨b, hbpost, by rw [hc, hid]⟩)
          have hbmem : b ∈ s.books := by
            rw [hsplit]
            exact List.mem_append_right _ (List.mem_cons_of_mem _ hbpost)
          rw [activeCountFor_append_other _ _ _ _ _ _ hbne]
          exact hacct b hbmem

theorem consistent_return_tt (s : LibState) (pid : String) (bid now : Int)
    (h : Consistent s) :
    Consistent (return_book_by_patron s pid bid now true true).2 := by
  rcases return_tt_cases s pid bid now with heq | ⟨book0, r0, t', hfind, hf, hbid, heq⟩
  · rw [heq]; exact h
  · obtain ⟨hnodup, href, hacct⟩ := h
    obtain ⟨rpre, rpost, hrsplit, hrpre, hopen, hrupd⟩ :=
      setFirstReturn_head_decomp s.records pid bid now r0 t' hf hbid
    have hfind' : s.books.find? (fun b => b.id == bid) = some book0 := hfind
    obtain ⟨pre, post, hsplit, hpre, hid, hupd⟩ :=
      updateFirstAvail_decomp s.books bid 1 book0 hfind'
    rw [heq]
    refine ⟨?_, ?_, ?_⟩
    · show ((updateFirstAvail s.books bid 1).map Book.id).Nodup
      rw [updateFirstAvail_map_id]; exact hnodup
    · intro r hr
      have hr' : r ∈ setFirstReturn s.records pid bid now := hr
      rw [hrupd] at hr'
      have hex : ∃ b ∈ s.books, b.id = r.book_id := by
        rcases List.mem_append.mp hr' with hrp | hrr
        · exact href r (by rw [hrsplit]; exact List.mem_append_left _ hrp)
        · rcases List.mem_cons.mp hrr with hrc | hrp
          · have : r.book_id = r0.book_id := by rw [hrc]
            rw [this]
            exact href r0 (by
              rw [hrsplit]
              exact List.mem_append_right _ (List.mem_cons_self _ _))
          · exact href r (by
              rw [hrsplit]
              exact List.mem_append_right _ (List.mem_cons_of_mem _ hrp))
      exact exists_book_id_of_map_eq s.books _ (updateFirstAvail_map_id s.books bid 1)
        r.book_id hex
    · intro b hb
      have hb' : b ∈ updateFirstAvail s.books bid 1 := hb
      rw [hupd] at hb'
      have hnodup2 : book0.id ∉ post.map Book.id := by
        rw [hsplit] at hnodup
        simp only [List.map_append, List.map_cons] at hnodup
        exact (List.nodup_cons.mp (hnodup.of_append_right)).1
      have hother : ∀ b' : Book, b' ∈ s.books → b'.id ≠ bid →
          0 ≤ b'.available_copies ∧
          b'.available_copies +
            ((activeCountFor (setFirstReturn s.records pid bid now) b'.id : Nat) : Int) ≤
            b'.total_copies := by
        intro b' hbmem hbne
        rw [hrupd, activeCountFor_close_other rpre rpost r0 pid bid now b'.id hopen hbne,
          ← hrsplit]
        exact hacct b' hbmem
      rcases List.mem_append.mp hb' with hbpre | hbrest
      · exact hother b (by rw [hsplit]; exact List.mem_append_left _ hbpre)
          (hpre b hbpre)
      · rcases List.mem_cons.mp hbrest with hbeq | hbpost
        · subst hbeq
          have hold := hacct book0 (List.mem_of_find?_eq_some hfind')
          rw [hid, hrsplit] at hold
          have hclose := activeCountFor_close_same rpre rpost r0 pid bid now hopen
          show 0 ≤ book0.available_copies + 1 ∧
            book0.available_copies + 1 +
              ((activeCountFor (setFirstReturn s.records pid bid now) book0.id : Nat) : Int) ≤
              book0.total_copies
          rw [hid, hrupd]
          constructor
          · omega
          · omega
        · have hbne : b.id ≠ bid := by
            intro hc
            exact hnodup2 (List.mem_map.mpr ⟨b, hbpost, by rw [hc, hid]⟩)
          exact hother b (by
            rw [hsplit]
            exact List.mem_append_right _ (List.mem_cons_of_mem _ hbpost)) hbne

theorem consistent_add_tt (s : LibState) (t a i : String) (tc : Int)
    (h : Consistent s) :
    Consistent (add_book_to_catalog s t a i tc true).2 := by
  rcases add_tt_cases s t a i tc with heq | ⟨htc, heq⟩
  · rw [heq]; exact h
  · obtain ⟨hnodup, href, hacct⟩ := h
    rw [heq]
    simp only [insert_book]
    have hfresh : ∀ b ∈ s.books, b.id ≠ maxBookId s.books + 1 := by
      intro b hb hc
      have := le_maxBookId s.books b hb
      omega
    refine ⟨?_, ?_, ?_⟩
    · rw [List.map_append]
      rw [List.nodup_append]
      refine ⟨hnodup, by simp, ?_⟩
      intro v hv hv'
      obtain ⟨b, hb, hbid⟩ := List.mem_map.mp hv
      have : v = maxBookId s.books + 1 := by simpa using hv'
      exact hfresh b hb (by rw [hbid, this])
    · intro r hr
      obtain ⟨b, hb, hbid⟩ := href r hr
      exact ⟨b, List.mem_append_left _ hb, hbid⟩
    · intro b hb
      rcases List.mem_append.mp hb with hbold | hbnew
      · exact hacct b hbold
      · rcases List.mem_singleton.mp hbnew with rfl
        have hzero : activeCountFor s.records (maxBookId s.books + 1) = 0 := by
          rw [activeCountFor, List.countP_eq_zero]
          intro r hr hc
          obtain ⟨bb, hbb, hbbid⟩ := href r hr
          have hrb : (r.book_id == maxBookId s.books + 1) = true := by
            simp only [Bool.and_eq_true] at hc
            exact hc.2
          have : r.book_id = maxBookId s.books + 1 := by simpa using hrb
          exact hfresh bb hbb (by rw [hbbid, this])
        show 0 ≤ tc ∧ tc + ((activeCountFor s.records (maxBookId s.books + 1) : Nat) : Int) ≤ tc
        rw [hzero]
        constructor
        · omega
        · simp

theorem consistent_applyOp (s : LibState) (op : LibOp)
    (hok : opAllOk op = true) (h : Consistent s) : Consistent (applyOp s op) := by
  cases op with
  | addB t a i tc ok =>
    have hok' : ok = true := hok
    subst hok'
    exact consistent_add_tt s t a i tc h
  | borrowB p b n i u =>
    have hok' : i = true ∧ u = true := by simpa [opAllOk] using hok
    obtain ⟨hi, hu⟩ := hok'
    subst hi; subst hu
    exact consistent_borrow_tt s p b n h
  | returnB p b n r a =>
    have hok' : r = true ∧ a = true := by simpa [opAllOk] using hok
    obtain ⟨hr, ha⟩ := hok'
    subst hr; subst ha
    exact consistent_return_tt s p b n h

theorem consistent_runOps (ops : List LibOp) : ∀ s : LibState, Consistent s →
    (∀ op ∈ ops, opAllOk op = true) → Consistent (runOps s ops) := by
  induction ops with
  | nil => intro s h _; exact h
  | cons op t ih =>
    intro s h hok
    have h1 : Consistent (applyOp s op) :=
      consistent_applyOp s op (hok op (List.mem_cons_self _ _)) h
    exact ih (applyOp s op) h1 (fun o ho => hok o (List.mem_cons_of_mem _ ho))

theorem validInit_consistent (s : LibState) (h : ValidInit s) : Consistent s := by
  obtain ⟨hrec, hnodup, hbooks⟩ := h
  refine ⟨hnodup, ?_, ?_⟩
  · intro r hr
    rw [hrec] at hr
    cases hr
  · intro b hb
    have hzero : activeCountFor s.records b.id = 0 := by
      rw [hrec]; rfl
    rw [hzero]
    have := hbooks b hb
    constructor
    · exact this.1
    · simpa using this.2

/-- Claim C4, counterexample.  Starting from a valid one-copy catalog, a
borrow whose record insert succeeds but whose availability decrement fails,
followed by a return of that record, leaves the book with available_copies =
2 > total_copies = 1, so the claimed invariant fails on the very path the
claim includes. -/
theorem spec_C4_counterexample :
    ValidInit partialFailInit ∧
    ((runOps partialFailInit partialFailOps).books.any
      (fun b => b.total_copies < b.available_copies)) = true := by
  constructor
  · exact ⟨rfl, by decide, by decide⟩
  · decide

/-- Claim C4, amended: in every state reachable from a valid catalog by any
sequence of addBook, borrow and returnBook operations in which every storage
call succeeds, every Book satisfies 0 ≤ available_copies ≤ total_copies.
(The unamended claim also admits runs where the borrow-record insert succeeds
but the availability decrement fails; those runs break the invariant, see the
counterexample.) -/
theorem spec_C4_amended (s : LibState) (ops : List LibOp)
    (hinit : ValidInit s) (hok : ∀ op ∈ ops, opAllOk op = true) :
    ∀ b ∈ (runOps s ops).books,
      0 ≤ b.available_copies ∧ b.available_copies ≤ b.total_copies := by
  obtain ⟨_, _, hacct⟩ := consistent_runOps ops s (validInit_consistent s hinit) hok
  intro b hb
  have hA := hacct b hb
  have hc : (0 : Int) ≤ ((activeCountFor (runOps s ops).records b.id : Nat) : Int) :=
    Int.ofNat_nonneg _
  exact ⟨hA.1, by omega⟩

/-- Claim C4, witness: the amended theorem applied to the concrete one-copy
catalog and the all-storage-ok borrow/return trace. -/
theorem spec_C4_witness :
    ValidInit partialFailInit ∧ (∀ op ∈ allOkOps, opAllOk op = true) ∧
    ∀ b ∈ (runOps partialFailInit allOkOps).books,
      0 ≤ b.available_copies ∧ b.available_copies ≤ b.total_copies := by
  have hv : ValidInit partialFailInit := ⟨rfl, by decide, by decide⟩
  have ho : ∀ op ∈ allOkOps, opAllOk op = true := by decide
  exact ⟨hv, ho, spec_C4_amended partialFailInit allOkOps hv ho⟩

/-- Claim C1, evaluation at the failing input.  For a patron whose
active-borrow-record list is empty (here: a valid-format patron with no
records at all), calculate_late_fee_for_book does not return a FeeQuote: the
Python scan loop never runs, `borrowed` stays None, and the subsequent
`borrowed["due_date"]` raises an uncaught TypeError — modelled as `none`.
This also contradicts the repository's own test suite, which expects a fee
dictionary for a patron with no records. -/
theorem spec_C1_crash :
    calculate_late_fee_for_book demoState "123456" 1 0 = none := rfl

/-- Claim C2, evaluation at the failing input.  A patron already holding five
active loans is granted a sixth: the guard is `current_borrowed > 5`, so with
a count of exactly 5 the borrow succeeds and the active count becomes 6,
contradicting both the claim and the code's own "maximum borrowing limit of
5 books" message. -/
theorem spec_C2_sixth_loan_accepted :
    get_patron_borrow_count fiveLoanState "123456" = 5 ∧
    (borrow_book_by_patron fiveLoanState "123456" 1 0 true true).1.1 = true ∧
    get_patron_borrow_count
      (borrow_book_by_patron fiveLoanState "123456" 1 0 true true).2 "123456" = 6 := by
  refine ⟨by decide, by decide, by decide⟩

theorem feeCentsFor_eq (d : Int) :
    feeCentsFor d = min (50 * min d 7 + 100 * max (d - 7) 0) 1500 := by
  simp only [feeCentsFor]
  split
  · omega
  · omega

/-- Claim C3 (confirmed): whenever the fee quote finds a borrow record (the
first active record matches the requested book), the returned quote has
days_overdue = max(now − due, 0); the fee is 50·d cents (= 0.50·d dollars)
for d in [0,7], min(350 + 100·(d−7), 1500) cents for d > 7, and never exceeds
1500 cents (= 15.00); d = 0 yields fee 0 with status "On time" and d > 0
status "Overdue".  All representable fees are exact multiples of 50 cents, so
the code's round(fee, 2) is the identity and the cents model is exact. -/
theorem spec_C3_fee_formula (s : LibState) (pid : String) (bid now : Int)
    (first : BorrowedView) (rest : List BorrowedView)
    (hbb : get_patron_borrowed_books s pid = first :: rest)
    (hmatch : first.book_id = bid) :
    ∃ fee d status,
      calculate_late_fee_for_book s pid bid now =
        some { fee_cents := fee, days_overdue := d, status := status } ∧
      d = max (now - first.due_date) 0 ∧
      (0 ≤ d ∧ d ≤ 7 → fee = 50 * d) ∧
      (7 < d → fee = min (350 + 100 * (d - 7)) 1500) ∧
      fee ≤ 1500 ∧
      (d = 0 → fee = 0 ∧ status = "On time") ∧
      (0 < d → status = "Overdue") := by
  have hbne : (first.book_id != bid) = false := by simp [hmatch]
  have hcalc : calculate_late_fee_for_book s pid bid now =
      if max (now - first.due_date) 0 ≤ 0 then
        some { fee_cents := 0, days_overdue := max (now - first.due_date) 0,
               status := "On time" }
      else
        some { fee_cents := feeCentsFor (max (now - first.due_date) 0),
               days_overdue := max (now - first.due_date) 0, status := "Overdue" } := by
    rw [calculate_late_fee_for_book, hbb]
    simp [lateFeeFromList, hbne]
  by_cases hdle : max (now - first.due_date) 0 ≤ 0
  · rw [hcalc, if_pos hdle]
    refine ⟨0, max (now - first.due_date) 0, "On time", rfl, rfl,
      fun _ => by omega, fun h => by omega, by omega, fun _ => ⟨rfl, rfl⟩,
      fun h => by omega⟩
  · rw [hcalc, if_neg hdle]
    refine ⟨feeCentsFor (max (now - first.due_date) 0),
      max (now - first.due_date) 0, "Overdue", rfl, rfl, fun h => ?_, fun h => ?_,
      ?_, fun h => by omega, fun _ => rfl⟩
    · rw [feeCentsFor_eq]; omega
    · rw [feeCentsFor_eq]; omega
    · rw [feeCentsFor_eq]; omega

/-- Claim C3, witness: the fee-formula theorem applied to a concrete loan due
on day 14, checked at 10 days overdue (fee 6.50); the further examples
5 days → 2.50, 40 days → 15.00 (cap) and 0 days → 0.00 "On time" are
evaluated directly. -/
theorem spec_C3_witness :
    calculate_late_fee_for_book oneLoanState "123456" 1 24 =
      some { fee_cents := 650, days_overdue := 10, status := "Overdue" } ∧
    calculate_late_fee_for_book oneLoanState "123456" 1 19 =
      some { fee_cents := 250, days_overdue := 5, status := "Overdue" } ∧
    calculate_late_fee_for_book oneLoanState "123456" 1 54 =
      some { fee_cents := 1500, days_overdue := 40, status := "Overdue" } ∧
    calculate_late_fee_for_book oneLoanState "123456" 1 14 =
      some { fee_cents := 0, days_overdue := 0, status := "On time" } := by
  refine ⟨?_, by decide, by decide, by decide⟩
  obtain ⟨fee, d, status, hc, hd, hsm, hbig, hle, hz, hov⟩ :=
    spec_C3_fee_formula oneLoanState "123456" 1 24
      { book_id := 1, title := "The Great Gatsby", author := "F. Scott Fitzgerald",
        borrow_date := 0, due_date := 14 } [] (by decide) rfl
  have hd10 : d = 10 := by rw [hd]; decide
  subst hd10
  have hfee : fee = 650 := by
    have := hbig (by omega)
    omega
  subst hfee
  have hst : status = "Overdue" := hov (by omega)
  subst hst
  exact hc

/-- Claim C5 (confirmed): when the patron's fetched active-record list is
non-empty, returnBook inspects only its first element.  If the first record's
book id differs from the requested one, the call fails with the "not
currently being borrowed" message and the store is untouched — whatever the
rest of the list contains (the statement holds for every state, hence for
every possible tail).  If it matches and both storage updates succeed, the
first active record of the patron for that book gets its return_date set and
that book's available_copies is incremented. -/
theorem spec_C5_first_record_scan (s : LibState) (pid : String) (bid now : Int)
    (uR uA : Bool) (book0 : Book) (first : BorrowedView) (rest : List BorrowedView)
    (hv : isValidPatronId pid = true)
    (hb : get_book_by_id s bid = some book0)
    (hbb : get_patron_borrowed_books s pid = first :: rest) :
    (first.book_id ≠ bid →
      return_book_by_patron s pid bid now uR uA =
        ((false, "This book is not currently being borrowed by you."), s)) ∧
    (first.book_id = bid → uR = true → uA = true →
      ∃ rpre r0 rpost bpre bpost,
        s.records = rpre ++ r0 :: rpost ∧
        (∀ x ∈ rpre, isActivePatronRecord pid x = false) ∧
        r0.patron_id = pid ∧ r0.book_id = bid ∧ r0.return_date = none ∧
        s.books = bpre ++ book0 :: bpost ∧
        (∀ x ∈ bpre, x.id ≠ bid) ∧ book0.id = bid ∧
        (return_book_by_patron s pid bid now uR uA).1.1 = true ∧
        (return_book_by_patron s pid bid now uR uA).2 =
          { books := bpre ++
              { book0 with available_copies := book0.available_copies + 1 } :: bpost
            records := rpre ++ { r0 with return_date := some now } :: rpost }) := by
  cases hf : s.records.filter (isActivePatronRecord pid) with
  | nil =>
    rw [get_patron_borrowed_books, hf] at hbb
    simp at hbb
  | cons r0 t' =>
    rw [get_patron_borrowed_books, hf] at hbb
    have hfirst : recordView s r0 = first := (List.cons.inj hbb).1
    constructor
    · intro hne
      have hbne : (first.book_id != bid) = true := by simp [hne]
      have hbb' : get_patron_borrowed_books s pid = first :: t'.map (recordView s) := by
        rw [get_patron_borrowed_books, hf]
        simp [hfirst]
      simp [return_book_by_patron, hv, hb, hbb', hbne]
    · intro hmatch huR huA
      subst huR; subst huA
      have hr0bid : r0.book_id = bid := by
        rw [← hmatch, ← hfirst]; rfl
      have hact : hasActiveRecord s.records pid bid = true :=
        hasActiveRecord_of_filter_head _ _ _ _ _ hf hr0bid
      obtain ⟨rpre, rpost, hrsplit, hrpre, hopen, hrupd⟩ :=
        setFirstReturn_head_decomp s.records pid bid now r0 t' hf hr0bid
      obtain ⟨bpre, bpost, hbsplit, hbpre, hbid0, hbupd⟩ :=
        updateFirstAvail_decomp s.books bid 1 book0 hb
      have hcomp : r0.patron_id = pid ∧ r0.book_id = bid ∧ r0.return_date = none := by
        simpa [isOpenLoanFor, Option.isNone_iff_eq_none, and_assoc] using hopen
      have hbb' : get_patron_borrowed_books s pid = first :: t'.map (recordView s) := by
        rw [get_patron_borrowed_books, hf]
        simp [hfirst]
      have hbne : (first.book_id != bid) = false := by simp [hmatch]
      have hres : return_book_by_patron s pid bid now true true =
          ((true, "Successfully returned book."),
            { books := updateFirstAvail s.books bid 1
              records := setFirstReturn s.records pid bid now }) := by
        simp [return_book_by_patron, hv, hb, hbb', hbne, returnFinish,
          update_borrow_record_return_date, hact, update_book_availability]
      refine ⟨rpre, r0, rpost, bpre, bpost, hrsplit, hrpre,
        hcomp.1, hcomp.2.1, hcomp.2.2, hbsplit, hbpre, hbid0, ?_, ?_⟩
      · rw [hres]
      · rw [hres]
        rw [hbupd, hrupd]

/-- Claim C5, witness: the theorem applied to a patron holding book 1.  A
return request for book 2 (also in the catalog) fails immediately with the
"not currently being borrowed" message although book 2 is simply not the
first record, and a return of book 1 succeeds. -/
theorem spec_C5_witness :
    return_book_by_patron oneLoanState "123456" 2 24 true true =
      ((false, "This book is not currently being borrowed by you."), oneLoanState) ∧
    (return_book_by_patron oneLoanState "123456" 1 24 true true).1.1 = true := by
  constructor
  · exact (spec_C5_first_record_scan oneLoanState "123456" 2 24 true true demoBook2
      { book_id := 1, title := "The Great Gatsby", author := "F. Scott Fitzgerald",
        borrow_date := 0, due_date := 14 } [] (by decide) (by decide) (by decide)).1
      (by decide)
  · obtain ⟨_, _, _, _, _, _, _, _, _, _, _, _, _, hsucc, _⟩ :=
      (spec_C5_first_record_scan oneLoanState "123456" 1 24 true true demoBook1
        { book_id := 1, title := "The Great Gatsby", author := "F. Scott Fitzgerald",
          borrow_date := 0, due_date := 14 } [] (by decide) (by decide) (by decide)).2
        rfl rfl rfl
    exact hsucc

/-- Claim C10 (confirmed): for a valid patron whose active-record list is
empty and an existing book, returnBook never produces the "not currently
being borrowed" failure — the scan loop is skipped — and the outcome is
decided by the storage calls alone: the return-date update touches no row
(the patron has no active record), reports failure, and the call returns the
update-error result with the store unchanged, for every combination of
storage-success flags. -/
theorem spec_C10_empty_scan (s : LibState) (pid : String) (bid now : Int)
    (uR uA : Bool) (book0 : Book)
    (hv : isValidPatronId pid = true)
    (hb : get_book_by_id s bid = some book0)
    (hempty : get_patron_borrowed_books s pid = []) :
    return_book_by_patron s pid bid now uR uA =
      ((false, "Error while updating return record."), s) ∧
    (return_book_by_patron s pid bid now uR uA).1.2 ≠
      "This book is not currently being borrowed by you." := by
  have hf : s.records.filter (isActivePatronRecord pid) = [] := by
    rw [get_patron_borrowed_books] at hempty
    exact List.map_eq_nil_iff.mp hempty
  have hact : hasActiveRecord s.records pid bid = false := by
    rw [hasActiveRecord, List.any_eq_false]
    intro x hx hc
    exact (List.filter_eq_nil_iff.mp hf) x hx (isOpenLoanFor_active pid bid x hc)
  have hres : return_book_by_patron s pid bid now uR uA =
      ((false, "Error while updating return record."), s) := by
    cases uR with
    | false => simp [return_book_by_patron, hv, hb, hempty, returnFinish]
    | true =>
      simp [return_book_by_patron, hv, hb, hempty, returnFinish,
        update_borrow_record_return_date, hact]
  refine ⟨hres, ?_⟩
  rw [hres]
  intro hc
  have hc' : "Error while updating return record." =
      "This book is not currently being borrowed by you." := hc
  exact absurd hc' (by decide)

/-- Claim C10, witness: the theorem applied to a catalog containing book 1
and a valid patron with no borrow records at all. -/
theorem spec_C10_witness :
    return_book_by_patron demoState "123456" 1 5 true true =
      ((false, "Error while updating return record."), demoState) :=
  (spec_C10_empty_scan demoState "123456" 1 5 true true demoBook1
    (by decide) (by decide) rfl).1

theorem buildDetails_eq (s : LibState) (pid : String) (now : Int)
    (first : BorrowedView) (rest : List BorrowedView)
    (hbb : get_patron_borrowed_books s pid = first :: rest) :
    ∀ l : List BorrowedView,
      buildDetails s pid now l = some (l.map (expectedDetail first now)) := by
  intro l
  induction l with
  | nil => rfl
  | cons b t ih =>
    have hcalc : calculate_late_fee_for_book s pid b.book_id now =
        some (if first.book_id != b.book_id then
                { fee_cents := 0, days_overdue := 0, status := "Not being borrowed" }
              else if max (now - first.due_date) 0 ≤ 0 then
                { fee_cents := 0, days_overdue := max (now - first.due_date) 0,
                  status := "On time" }
              else
                { fee_cents := feeCentsFor (max (now - first.due_date) 0),
                  days_overdue := max (now - first.due_date) 0,
                  status := "Overdue" }) := by
      rw [calculate_late_fee_for_book, hbb]
      cases hbne : (first.book_id != b.book_id) with
      | true => simp [lateFeeFromList, hbne]
      | false =>
        simp only [lateFeeFromList, hbne]
        exact (apply_ite some _ _ _).symm
    have hdetail : expectedDetail first now b =
        mkDetail b (if first.book_id != b.book_id then
                { fee_cents := 0, days_overdue := 0, status := "Not being borrowed" }
              else if max (now - first.due_date) 0 ≤ 0 then
                { fee_cents := 0, days_overdue := max (now - first.due_date) 0,
                  status := "On time" }
              else
                { fee_cents := feeCentsFor (max (now - first.due_date) 0),
                  days_overdue := max (now - first.due_date) 0,
                  status := "Overdue" }) := by
      rw [expectedDetail]
      cases hbne : (first.book_id != b.book_id) with
      | true => simp [hbne]
      | false =>
        simp only [hbne]
        by_cases hd : max (now - first.due_date) 0 ≤ 0
        · simp [hd]
        · simp [hd]
    rw [List.map_cons]
    rw [buildDetails, hcalc, ih, hdetail]

/-- Claim C6, amended: for a valid patron with a non-empty active list, the
status report delivers one detail entry per active record and
total_late_fee equal to the sum of the entries' fees, each entry obtained by
calling the fee quote for that record's book id — but because the quote
inspects only the first record of the fetched list, an entry matching the
first record's book id carries the quote computed from the first record's due
date, and every other entry carries fee 0.00 with status "Not being
borrowed" rather than that loan's own overdue fee. -/
theorem spec_C6_amended (s : LibState) (pid : String) (now : Int)
    (first : BorrowedView) (rest : List BorrowedView)
    (hv : isValidPatronId pid = true)
    (hbb : get_patron_borrowed_books s pid = first :: rest) :
    ∃ rep, get_patron_status_report s pid now = some rep ∧
      rep.borrow_count = (first :: rest).length ∧
      rep.borrowed_books = (first :: rest).map (expectedDetail first now) ∧
      rep.total_late_fee_cents =
        ((first :: rest).map
          (fun b => (expectedDetail first now b).late_fee_cents)).sum := by
  have hbd := buildDetails_eq s pid now first rest hbb (first :: rest)
  refine ⟨{ patron_id := pid
            borrow_count := (first :: rest).length
            borrowed_books := (first :: rest).map (expectedDetail first now)
            borrowing_history := get_patron_history s pid
            total_late_fee_cents :=
              (((first :: rest).map (expectedDetail first now)).map
                BorrowDetail.late_fee_cents).sum }, ?_, rfl, rfl, ?_⟩
  · rw [get_patron_status_report]
    simp only [hv, Bool.not_true, Bool.false_eq_true, if_false, hbb, hbd]
  · show (((first :: rest).map (expectedDetail first now)).map
        BorrowDetail.late_fee_cents).sum = _
    rw [List.map_map]
    rfl

/-- Claim C6, counterexample.  Patron 123456 has two active loans, book 1 due
on day 14 and book 2 due on day 15; on day 24 both are overdue.  The report's
second entry shows fee 0 with status "Not being borrowed" even though that
loan's own quote (9 days overdue) would be 5.50 "Overdue" — so not every
entry carries its own overdue fee. -/
theorem spec_C6_counterexample :
    (get_patron_status_report twoLoanState "123456" 24).map
        (fun rep => rep.borrowed_books.map
          (fun e => (e.book_id, e.late_fee_cents, e.days_overdue, e.status))) =
      some [(1, 650, 10, "Overdue"), (2, 0, 0, "Not being borrowed")] ∧
    lateFeeFromList
        [{ book_id := 2, title := "Nineteen Eighty-Four", author := "George Orwell",
           borrow_date := 1, due_date := 15 }] 2 24 =
      some { fee_cents := 550, days_overdue := 9, status := "Overdue" } := by
  exact ⟨by decide, by decide⟩

/-- Claim C6, witness: the amended theorem applied to the two-loan state on
day 24 — two entries, total fee 6.50 (only the first loan's fee). -/
theorem spec_C6_witness :
    (get_patron_status_report twoLoanState "123456" 24).map
        StatusReport.borrow_count = some 2 ∧
    (get_patron_status_report twoLoanState "123456" 24).map
        StatusReport.total_late_fee_cents = some 650 := by
  obtain ⟨rep, hrep, hcount, hdetails, htotal⟩ :=
    spec_C6_amended twoLoanState "123456" 24
      { book_id := 1, title := "The Great Gatsby", author := "F. Scott Fitzgerald",
        borrow_date := 0, due_date := 14 }
      [{ book_id := 2, title := "Nineteen Eighty-Four", author := "George Orwell",
         borrow_date := 1, due_date := 15 }]
      (by decide) (by decide)
  rw [hrep]
  constructor
  · show some rep.borrow_count = some 2
    rw [hcount]
    decide
  · show some rep.total_late_fee_cents = some 650
    rw [htotal]
    decide

/-- Claim C7 (confirmed): a borrow of a book with available_copies = 0 fails;
a successful borrow changes exactly one book — the first (and, with
store-unique ids, only) one with the requested id — by exactly −1 in
available_copies, leaving every other list entry untouched, and a successful
return changes that book by exactly +1, likewise touching nothing else. -/
theorem spec_C7_availability_delta (s : LibState) (pid : String) (bid now : Int)
    (iOk uOk uR uA : Bool) :
    (∀ book0, get_book_by_id s bid = some book0 → book0.available_copies = 0 →
      (borrow_book_by_patron s pid bid now iOk uOk).1.1 = false) ∧
    ((borrow_book_by_patron s pid bid now iOk uOk).1.1 = true →
      ∃ pre book0 post,
        s.books = pre ++ book0 :: post ∧ (∀ x ∈ pre, x.id ≠ bid) ∧ book0.id = bid ∧
        (borrow_book_by_patron s pid bid now iOk uOk).2.books =
          pre ++ { book0 with available_copies := book0.available_copies - 1 } :: post) ∧
    ((return_book_by_patron s pid bid now uR uA).1.1 = true →
      ∃ pre book0 post,
        s.books = pre ++ book0 :: post ∧ (∀ x ∈ pre, x.id ≠ bid) ∧ book0.id = bid ∧
        (return_book_by_patron s pid bid now uR uA).2.books =
          pre ++ { book0 with available_copies := book0.available_copies + 1 } :: post) := by
  refine ⟨?_, ?_, ?_⟩
  · intro book0 hb h0
    by_cases hv : isValidPatronId pid = true
    · simp [borrow_book_by_patron, hv, hb, h0]
    · have hv' : isValidPatronId pid = false := by simpa using hv
      simp [borrow_book_by_patron, hv']
  · intro hsucc
    by_cases hv : isValidPatronId pid = true
    · cases hb : get_book_by_id s bid with
      | none => simp [borrow_book_by_patron, hv, hb] at hsucc
      | some book0 =>
        by_cases ha : book0.available_copies ≤ 0
        · simp [borrow_book_by_patron, hv, hb, ha] at hsucc
        · by_cases hc : 5 < get_patron_borrow_count s pid
          · simp [borrow_book_by_patron, hv, hb, ha, hc] at hsucc
          · cases iOk with
            | false => simp [borrow_book_by_patron, hv, hb, ha, hc] at hsucc
            | true =>
              cases uOk with
              | false => simp [borrow_book_by_patron, hv, hb, ha, hc] at hsucc
              | true =>
                obtain ⟨pre, post, hsplit, hpre, hid, hupd⟩ :=
                  updateFirstAvail_decomp s.books bid (-1) book0 hb
                refine ⟨pre, book0, post, hsplit, hpre, hid, ?_⟩
                have hstate : (borrow_book_by_patron s pid bid now true true).2.books =
                    updateFirstAvail s.books bid (-1) := by
                  simp [borrow_book_by_patron, hv, hb, ha, hc,
                    insert_borrow_record, update_book_availability]
                rw [hstate, hupd]
                have hm1 : book0.available_copies + (-1) = book0.available_copies - 1 := by
                  omega
                rw [hm1]
    · have hv' : isValidPatronId pid = false := by simpa using hv
      simp [borrow_book_by_patron, hv'] at hsucc
  · intro hsucc
    by_cases hv : isValidPatronId pid = true
    · cases hb : get_book_by_id s bid with
      | none => simp [return_book_by_patron, hv, hb] at hsucc
      | some book0 =>
        cases hf : s.records.filter (isActivePatronRecord pid) with
        | nil =>
          have hbb : get_patron_borrowed_books s pid = [] := by
            simp [get_patron_borrowed_books, hf]
          have hact : hasActiveRecord s.records pid bid = false := by
            rw [hasActiveRecord, List.any_eq_false]
            intro x hx hc
            exact (List.filter_eq_nil_iff.mp hf) x hx (isOpenLoanFor_active pid bid x hc)
          cases uR with
          | false => simp [return_book_by_patron, hv, hb, hbb, returnFinish] at hsucc
          | true =>
            simp [return_book_by_patron, hv, hb, hbb, returnFinish,
              update_borrow_record_return_date, hact] at hsucc
        | cons r0 t' =>
          have hbb : get_patron_borrowed_books s pid =
              recordView s r0 :: t'.map (recordView s) := by
            simp [get_patron_borrowed_books, hf]
          by_cases hbid : r0.book_id = bid
          · have hfirst : ((recordView s r0).book_id != bid) = false := by
              simp [recordView, hbid]
            have hact : hasActiveRecord s.records pid bid = true :=
              hasActiveRecord_of_filter_head _ _ _ _ _ hf hbid
            cases uR with
            | false =>
              simp [return_book_by_patron, hv, hb, hbb, hfirst, returnFinish] at hsucc
            | true =>
              cases uA with
              | false =>
                simp [return_book_by_patron, hv, hb, hbb, hfirst, returnFinish,
                  update_borrow_record_return_date, hact] at hsucc
              | true =>
                obtain ⟨pre, post, hsplit, hpre, hid, hupd⟩ :=
                  updateFirstAvail_decomp s.books bid 1 book0 hb
                refine ⟨pre, book0, post, hsplit, hpre, hid, ?_⟩
                have hstate : (return_book_by_patron s pid bid now true true).2.books =
                    updateFirstAvail s.books bid 1 := by
                  simp [return_book_by_patron, hv, hb, hbb, hfirst, returnFinish,
                    update_borrow_record_return_date, hact, update_book_availability]
                rw [hstate, hupd]
          · have hfirst : ((recordView s r0).book_id != bid) = true := by
              simp [recordView, hbid]
            simp [return_book_by_patron, hv, hb, hbb, hfirst] at hsucc
    · have hv' : isValidPatronId pid = false := by simpa using hv
      simp [return_book_by_patron, hv'] at hsucc

/-- Claim C7, witness: the theorem applied to a zero-availability borrow (it
fails), a successful borrow and a successful return — the latter two leave
the number of catalog rows unchanged, only the one book's count moving. -/
theorem spec_C7_witness :
    (borrow_book_by_patron zeroAvailState "123456" 1 0 true true).1.1 = false ∧
    (borrow_book_by_patron demoState "123456" 1 0 true true).2.books.length =
      demoState.books.length ∧
    (return_book_by_patron oneLoanState "123456" 1 24 true true).2.books.length =
      oneLoanState.books.length := by
  refine ⟨?_, ?_, ?_⟩
  · exact (spec_C7_availability_delta zeroAvailState "123456" 1 0 true true true true).1
      { id := 1, title := "Walden", author := "Henry David Thoreau",
        isbn := "9781505297720", total_copies := 2, available_copies := 0 }
      (by decide) rfl
  · obtain ⟨pre, book0, post, hsplit, _, _, hupd⟩ :=
      (spec_C7_availability_delta demoState "123456" 1 0 true true true true).2.1
        (by decide)
    rw [hupd, hsplit]
    simp
  · obtain ⟨pre, book0, post, hsplit, _, _, hupd⟩ :=
      (spec_C7_availability_delta oneLoanState "123456" 1 24 true true true true).2.2
        (by decide)
    rw [hupd, hsplit]
    simp

theorem add_cases (s : LibState) (t a i : String) (tc : Int) (insOk : Bool) :
    ((add_book_to_catalog s t a i tc insOk).1.1 = false ∧
     (add_book_to_catalog s t a i tc insOk).2 = s) ∨
    ((pyStrip t) ≠ "" ∧ (pyStrip t).length ≤ 200 ∧ (pyStrip a) ≠ "" ∧ (pyStrip a).length ≤ 100 ∧
     i.length = 13 ∧ 0 < tc ∧ get_book_by_isbn s i = none ∧ insOk = true ∧
     (add_book_to_catalog s t a i tc insOk).1.1 = true ∧
     (add_book_to_catalog s t a i tc insOk).2 = insert_book s (pyStrip t) (pyStrip a) i tc tc) := by
  cases h1 : ((pyStrip t) == "") with
  | true => left; simp [add_book_to_catalog, h1]
  | false =>
    by_cases h2 : (pyStrip t).length > 200
    · left; simp [add_book_to_catalog, h1, h2]
    · cases h3 : ((pyStrip a) == "") with
      | true => left; simp [add_book_to_catalog, h1, h2, h3]
      | false =>
        by_cases h4 : (pyStrip a).length > 100
        · left; simp [add_book_to_catalog, h1, h2, h3, h4]
        · cases h5 : (i.length == 13) with
          | false => left; simp [add_book_to_catalog, h1, h2, h3, h4, h5]
          | true =>
            by_cases h6 : tc ≤ 0
            · left; simp [add_book_to_catalog, h1, h2, h3, h4, h5, h6]
            · cases h7 : get_book_by_isbn s i with
              | some b => left; simp [add_book_to_catalog, h1, h2, h3, h4, h5, h6, h7]
              | none =>
                cases insOk with
                | false => left; simp [add_book_to_catalog, h1, h2, h3, h4, h5, h6, h7]
                | true =>
                  right
                  refine ⟨by simpa using h1, by omega, by simpa using h3, by omega,
                    by simpa using h5, by omega, rfl, rfl, ?_, ?_⟩
                  · simp [add_book_to_catalog, h1, h2, h3, h4, h5, h6, h7]
                  · simp [add_book_to_catalog, h1, h2, h3, h4, h5, h6, h7]

theorem find?_append_singleton_ne_none {α : Type} (l : List α) (x : α)
    (p : α → Bool) (hx : p x = true) : (l ++ [x]).find? p ≠ none := by
  intro hc
  rw [List.find?_eq_none] at hc
  exact (hc x (List.mem_append_right _ (List.mem_singleton_self x))) hx

/-- Claim C8 (confirmed): addBook reports failure — and leaves the catalog
untouched — for every blank-after-trim title, every title longer than 200
characters after trimming, and every ISBN whose length differs from 13; when
an ISBN already present in the catalog is submitted the call fails with the
"already exists" message (whenever the field validations pass, which is the
only way to reach the duplicate check), again inserting nothing; and a
successful insert makes the ISBN present, so the second insertion of the same
ISBN fails. -/
theorem spec_C8_addBook_validation (s : LibState) (t a i : String) (tc : Int)
    (insOk : Bool) :
    ((pyStrip t) = "" →
      (add_book_to_catalog s t a i tc insOk).1.1 = false ∧
      (add_book_to_catalog s t a i tc insOk).2 = s) ∧
    (200 < (pyStrip t).length →
      (add_book_to_catalog s t a i tc insOk).1.1 = false ∧
      (add_book_to_catalog s t a i tc insOk).2 = s) ∧
    (i.length ≠ 13 →
      (add_book_to_catalog s t a i tc insOk).1.1 = false ∧
      (add_book_to_catalog s t a i tc insOk).2 = s) ∧
    (get_book_by_isbn s i ≠ none →
      (add_book_to_catalog s t a i tc insOk).1.1 = false ∧
      (add_book_to_catalog s t a i tc insOk).2 = s) ∧
    (get_book_by_isbn s i ≠ none → (pyStrip t) ≠ "" → (pyStrip t).length ≤ 200 →
      (pyStrip a) ≠ "" → (pyStrip a).length ≤ 100 → i.length = 13 → 0 < tc →
      (add_book_to_catalog s t a i tc insOk).1 =
        (false, "A book with this ISBN already exists.")) ∧
    ((add_book_to_catalog s t a i tc insOk).1.1 = true →
      get_book_by_isbn (add_book_to_catalog s t a i tc insOk).2 i ≠ none) := by
  refine ⟨?_, ?_, ?_, ?_, ?_, ?_⟩
  · intro h
    rcases add_cases s t a i tc insOk with hl | hr
    · exact hl
    · exact absurd h hr.1
  · intro h
    rcases add_cases s t a i tc insOk with hl | hr
    · exact hl
    · omega
  · intro h
    rcases add_cases s t a i tc insOk with hl | hr
    · exact hl
    · exact absurd hr.2.2.2.2.1 h
  · intro h
    rcases add_cases s t a i tc insOk with hl | hr
    · exact hl
    · exact absurd hr.2.2.2.2.2.2.1 h
  · intro hdup h1 h2 h3 h4 h5 h6
    have c1 : ((pyStrip t) == "") = false := beq_eq_false_iff_ne.mpr h1
    have c2 : ¬ ((pyStrip t).length > 200) := by omega
    have c3 : ((pyStrip a) == "") = false := beq_eq_false_iff_ne.mpr h3
    have c4 : ¬ ((pyStrip a).length > 100) := by omega
    have c5 : (i.length == 13) = true := by simpa using h5
    have c6 : ¬ (tc ≤ 0) := by omega
    cases h7 : get_book_by_isbn s i with
    | none => exact absurd h7 hdup
    | some b => simp [add_book_to_catalog, c1, c2, c3, c4, c5, c6, h7]
  · intro hsucc
    rcases add_cases s t a i tc insOk with hl | hr
    · rw [hl.1] at hsucc
      cases hsucc
    · rw [hr.2.2.2.2.2.2.2.2.2]
      rw [get_book_by_isbn]
      simp only [insert_book]
      exact find?_append_singleton_ne_none _ _ _ (by simp)

/-- Claim C8, witness: blank title, over-long title, 9-character ISBN and
duplicate ISBN all rejected without changing the demo catalog; the duplicate
case carries the "already exists" message; a fresh add then makes its ISBN
findable. -/
theorem spec_C8_witness :
    ((add_book_to_catalog demoState "" "Author" "1234567890123" 1 true).1.1 = false ∧
      (add_book_to_catalog demoState "" "Author" "1234567890123" 1 true).2 = demoState) ∧
    ((add_book_to_catalog demoState longTitle "Author" "1234567890123" 1 true).1.1 = false ∧
      (add_book_to_catalog demoState longTitle "Author" "1234567890123" 1 true).2 = demoState) ∧
    ((add_book_to_catalog demoState "Book" "Author" "123456789" 1 true).1.1 = false ∧
      (add_book_to_catalog demoState "Book" "Author" "123456789" 1 true).2 = demoState) ∧
    (add_book_to_catalog demoState "Another Copy" "Someone" "9780743273565" 1 true).1 =
      (false, "A book with this ISBN already exists.") ∧
    get_book_by_isbn
      (add_book_to_catalog demoState "New Book" "New Author" "1111111111111" 2 true).2
      "1111111111111" ≠ none := by
  refine ⟨?_, ?_, ?_, ?_, ?_⟩
  · exact (spec_C8_addBook_validation demoState "" "Author" "1234567890123" 1 true).1 rfl
  · exact (spec_C8_addBook_validation demoState longTitle "Author" "1234567890123" 1
      true).2.1 (by decide)
  · exact (spec_C8_addBook_validation demoState "Book" "Author" "123456789" 1
      true).2.2.1 (by decide)
  · exact (spec_C8_addBook_validation demoState "Another Copy" "Someone" "9780743273565"
      1 true).2.2.2.2.1 (by decide) (by decide) (by decide) (by decide) (by decide)
      (by decide) (by decide)
  · exact (spec_C8_addBook_validation demoState "New Book" "New Author" "1111111111111"
      2 true).2.2.2.2.2 (by decide)

theorem nodup_filter_le_one (books : List Book) (v : String) :
    nodupLoweredIsbn books = true →
    (books.filter (fun b => pyLower b.isbn == v)).length ≤ 1 := by
  induction books with
  | nil => intro _; simp
  | cons b t ih =>
    intro hnd
    have hnd' : (t.all (fun x => pyLower x.isbn != pyLower b.isbn)) = true ∧
        nodupLoweredIsbn t = true := by
      simpa [nodupLoweredIsbn] using hnd
    by_cases hb : (pyLower b.isbn == v) = true
    · rw [List.filter_cons, if_pos hb]
      have hnil : t.filter (fun x => pyLower x.isbn == v) = [] := by
        rw [List.filter_eq_nil_iff]
        intro x hx hc
        have h1 : pyLower x.isbn = v := by simpa using hc
        have h2 : pyLower b.isbn = v := by simpa using hb
        have h3 := List.all_eq_true.mp hnd'.1 x hx
        rw [h1, h2] at h3
        simp at h3
      rw [hnil]
      simp
    · rw [List.filter_cons, if_neg hb]
      exact ih hnd'.2

/-- Claim C9, counterexample.  ISBNs are only length-checked, so two books
whose ISBN strings differ only in letter case can coexist: the isbn values
are unique as strings, yet an "isbn" search for either spelling matches both
books (the comparison lowercases both sides), returning two entries. -/
theorem spec_C9_counterexample :
    (caseIsbnState.books.map Book.isbn).Nodup ∧
    (search_books_in_catalog caseIsbnState "ABCDEFGHIJKLM" "isbn").length = 2 := by
  exact ⟨by decide, by decide⟩

/-- Claim C9, amended: in every catalog whose ISBNs are unique after
lowercasing (rather than merely unique as raw strings), an "isbn" search
returns at most one entry, and an entry is returned only when its ISBN equals
the trimmed search term case-insensitively.  (With only raw uniqueness, two
case-variant ISBNs can both match, see the counterexample.) -/
theorem spec_C9_isbn_search (s : LibState) (term ty : String)
    (hnd : nodupLoweredIsbn s.books = true)
    (hty : pyLower ty = "isbn") :
    (search_books_in_catalog s term ty).length ≤ 1 ∧
    ∀ b ∈ search_books_in_catalog s term ty,
      pyLower b.isbn = pyLower (pyStrip term) := by
  have h0 : (ty == "") = false := by
    apply beq_eq_false_iff_ne.mpr
    intro hc
    rw [hc] at hty
    exact absurd hty (by decide)
  have e1 : (("isbn" : String) == "title") = false := by decide
  have e2 : (("isbn" : String) == "author") = false := by decide
  have e3 : (("isbn" : String) == "isbn") = true := by decide
  have hsearch : search_books_in_catalog s term ty =
      if (term == "") = true then []
      else s.books.filter (fun b => pyLower b.isbn == pyLower (pyStrip term)) := by
    cases hterm : (term == "") with
    | true => simp [search_books_in_catalog, hterm]
    | false =>
      simp [search_books_in_catalog, hterm, h0, hty, e1, e2, e3, get_all_books]
  rw [hsearch]
  cases hterm : (term == "") with
  | true => simp
  | false =>
    simp only [Bool.false_eq_true, if_false]
    constructor
    · exact nodup_filter_le_one s.books (pyLower (pyStrip term)) hnd
    · intro b hb
      have := List.of_mem_filter hb
      simpa using this

/-- Claim C9, witness: the amended theorem applied to the demo catalog (whose
two ISBNs stay distinct after lowercasing) and the exact ISBN of book 2. -/
theorem spec_C9_witness :
    nodupLoweredIsbn demoState.books = true ∧
    (search_books_in_catalog demoState "9780451524935" "isbn").length ≤ 1 ∧
    ∀ b ∈ search_books_in_catalog demoState "9780451524935" "isbn",
      pyLower b.isbn = pyLower (pyStrip "9780451524935") := by
  have hnd : nodupLoweredIsbn demoState.books = true := by decide
  obtain ⟨h1, h2⟩ := spec_C9_isbn_search demoState "9780451524935" "isbn" hnd (by decide)
  exact ⟨hnd, h1, h2⟩
